import Mathlib

/-!
Verification of the README-generation core of `cargo-readme` (`src/doc.rs`).

Lines of the input source and all text are modelled as `List Char` (the Rust
code slices lines at byte index 4; for the ASCII doc-comment prefix this
coincides with dropping four characters).  The fence-classification state
machine of `extract`, the folder `fold_data`, the decorators, the template
merge `process_template` and the orchestrator `generate_readme` are embedded
directly from the source.  Rust `Option::unwrap` on `None` (a panic) is
modelled by the outer `Option` layer of the fallible operations: `none`
means the Rust code would panic, `some (Except.error e)` means it returns
`Err(e)`, and `some (Except.ok s)` means it returns `Ok(s)`.
-/

deriving instance DecidableEq for Except

namespace CargoReadme

/-- The three-way fence classification, `enum Code` in the source. -/
inductive Code
  | Rust
  | Other
  | Doc
deriving DecidableEq

/-- Crate metadata: `struct CrateInfo` in the source. -/
structure CrateInfo where
  name : List Char
  license : Option (List Char)

/-- The doc-comment line marker `//!`. -/
def docMarker : List Char := "//!".toList

/-- The blank doc line `//!` compared against `line.trim()`. -/
def bareDoc : List Char := "//!".toList

/-- The fence opener `//! ` followed by three backticks, as used by both fence regexes. -/
def fenceOpen : List Char := ("//! " ++ "```").toList

/-- The bare closing fence line. -/
def closeFenceLine : List Char := ("//! " ++ "```").toList

/-- The hidden-line marker `//! # ` (doc-prefix, hash, space). -/
def hiddenMarker : List Char := "//! # ".toList

/-- Whitespace test used by `str::trim` (modelled by `Char.isWhitespace`). -/
def wsp (c : Char) : Bool := c.isWhitespace

/-- Rust `str::trim`: drop whitespace from both ends. -/
def trim (l : List Char) : List Char :=
  ((l.dropWhile wsp).reverse.dropWhile wsp).reverse

/-- A word character, modelling the regex class `\w` (ASCII part). -/
def isWordChar (c : Char) : Bool := c.isAlphanum || c == '_'

/-- The anchored regex `^//! ` + three backticks + `(no_run|ignore|should_panic)?$`:
the line is exactly the fence opener optionally followed by one accepted modifier. -/
def reCodeRust (l : List Char) : Prop :=
  l = fenceOpen ∨ l = fenceOpen ++ "no_run".toList ∨
    l = fenceOpen ++ "ignore".toList ∨ l = fenceOpen ++ "should_panic".toList

instance (l : List Char) : Decidable (reCodeRust l) := by
  unfold reCodeRust; infer_instance

/-- Head-is-a-word-character test for the scanner below. -/
def headWord : List Char → Bool
  | [] => false
  | d :: _ => isWordChar d

/-- The unanchored regex `//! ` + three backticks + `\w+`: some position of the
line starts with the fence opener immediately followed by a word character. -/
def reCodeOther : List Char → Bool
  | [] => false
  | c :: rest =>
    (fenceOpen.isPrefixOf (c :: rest) && headWord ((c :: rest).drop 7)) || reCodeOther rest

/-- The tail of per-line processing (everything after the fence if/else chain in
`extract`): blank doc lines become empty strings, other lines lose their first
four characters and, with `indent_headings` inside prose, a leading `#` gains
one more `#`. -/
def stripLine (ih : Bool) (sec : Code) (line : List Char) : List Char :=
  if trim line = bareDoc then []
  else
    if ih = true ∧ sec = Code.Doc ∧ ("#".toList).isPrefixOf (line.drop 4) = true then
      '#' :: line.drop 4
    else line.drop 4

/-- The hidden-line check and the strip step, reached by every prefixed line
that the fence chain did not early-return on, with the section as updated by
that chain. -/
def lineTail (ih : Bool) (sec : Code) (line : List Char) : Code × Option (List Char) :=
  if sec = Code.Rust ∧ hiddenMarker.isPrefixOf line = true then (sec, none)
  else (sec, some (stripLine ih sec line))

/-- One iteration of the `filter_map` closure of `extract`: given the current
section and the raw line, produce the next section and the emitted line (if
any). -/
def step (ih : Bool) (sec : Code) (line : List Char) : Code × Option (List Char) :=
  if docMarker.isPrefixOf line = true then
    if sec = Code.Doc ∧ reCodeRust line then
      (Code.Rust, some ("```rust".toList))
    else if sec = Code.Doc ∧ reCodeOther line = true then
      lineTail ih Code.Other line
    else if ¬sec = Code.Doc ∧ line = closeFenceLine then
      (Code.Doc, some ("```".toList))
    else
      lineTail ih sec line
  else (sec, none)

/-- The `filter_map` fold of `extract`, carrying the section across lines. -/
def extractGo (ih : Bool) : Code → List (List Char) → List (List Char)
  | _, [] => []
  | sec, l :: rest =>
    match step ih sec l with
    | (sec', some s) => s :: extractGo ih sec' rest
    | (sec', none) => extractGo ih sec' rest

/-- Function `extract`: run the state machine over the source lines starting in `Doc`. -/
def extract (source : List (List Char)) (indent_headings : Bool) : List (List Char) :=
  extractGo indent_headings Code.Doc source

/-- Function `fold_data`: join the extracted lines with single newlines. -/
def fold_data (data : List (List Char)) : List Char :=
  match data with
  | [] => []
  | x :: rest => rest.foldl (fun acc line => acc ++ '\n' :: line) x

/-- The `\x7b\x7bcrate\x7d\x7d` placeholder. -/
def crateTok : List Char := "\x7b\x7bcrate\x7d\x7d".toList

/-- The `\x7b\x7blicense\x7d\x7d` placeholder. -/
def licenseTok : List Char := "\x7b\x7blicense\x7d\x7d".toList

/-- The `\x7b\x7breadme\x7d\x7d` placeholder. -/
def readmeTok : List Char := "\x7b\x7breadme\x7d\x7d".toList

/-- Error of `generate_readme` when `add_license` is set but no license exists. -/
def noLicenseMsg : List Char := "There is no license in Cargo.toml".toList

/-- Error of `process_template` when the license placeholder has no license. -/
def licFoundMsg : List Char :=
  "`\x7b\x7blicense\x7d\x7d` found in template but there is no license in Cargo.toml".toList

/-- Error of `process_template` when the readme placeholder is missing. -/
def missingReadmeMsg : List Char := "Missing `\x7b\x7breadme\x7d\x7d` in template".toList

/-- Rust `str::contains` with a literal pattern: some suffix of `l` starts
with `pat`. -/
def containsTok (pat : List Char) : List Char → Bool
  | [] => pat.isEmpty
  | c :: rest => pat.isPrefixOf (c :: rest) || containsTok pat rest

/-- Rust `str::replace`: replace every non-overlapping occurrence of `pat`,
scanning left to right.  The `Nat` argument counts characters still to skip
after a match (`pat` is never empty at the call sites). -/
def replaceLoop (pat rep : List Char) : Nat → List Char → List Char
  | _ + 1, [] => []
  | k + 1, _ :: rest => replaceLoop pat rep k rest
  | 0, [] => []
  | 0, c :: rest =>
    if pat.isPrefixOf (c :: rest) then rep ++ replaceLoop pat rep (pat.length - 1) rest
    else c :: replaceLoop pat rep 0 rest

/-- Rust `str::replace` entry point. -/
def replaceAll (pat rep l : List Char) : List Char := replaceLoop pat rep 0 l

/-- Rust `template.trim_right_matches("\n")`: remove every trailing newline
character. -/
def trimNewlines (l : List Char) : List Char :=
  (l.reverse.dropWhile (fun c => c == '\n')).reverse

/-- Function `prepend_title`: a top-level heading with the crate name, a blank line,
then the body. -/
def prepend_title (readme : List Char) (crate_name : List Char) : List Char :=
  "# ".toList ++ crate_name ++ "\n\n".toList ++ readme

/-- Function `append_license`: the body, a blank line, then a `License:` line. -/
def append_license (readme : List Char) (license : List Char) : List Char :=
  readme ++ "\n\nLicense: ".toList ++ license

/-- The title stage of `process_template` (lines 150-154 of `doc.rs`): either
prepend the title to the readme, or substitute the crate placeholder in the
template.  Returns the updated `(template, readme)` pair. -/
def titleStep (template readme : List Char) (ci : CrateInfo) (add_title : Bool) :
    List Char × List Char :=
  if add_title = true ∧ containsTok crateTok template = false then
    (template, prepend_title readme ci.name)
  else (replaceAll crateTok ci.name template, readme)

/-- The license stage of `process_template` (lines 156-163 of `doc.rs`).
`none` models the `unwrap` panic when the license is appended without being
configured; `some (Except.error e)` the returned error; `some (Except.ok p)`
the updated `(template, readme)` pair. -/
def licenseStep (template readme : List Char) (ci : CrateInfo) (add_license : Bool) :
    Option (Except (List Char) (List Char × List Char)) :=
  if add_license = true ∧ containsTok licenseTok template = false then
    match ci.license with
    | none => none
    | some lic => some (Except.ok (template, append_license readme lic))
  else if containsTok licenseTok template = true then
    match ci.license with
    | none => some (Except.error licFoundMsg)
    | some lic => some (Except.ok (replaceAll licenseTok lic template, readme))
  else some (Except.ok (template, readme))

/-- The readme stage of `process_template` (lines 165-170 of `doc.rs`). -/
def readmeStep (template readme : List Char) : Except (List Char) (List Char) :=
  if containsTok readmeTok template = true then Except.ok (replaceAll readmeTok readme template)
  else Except.error missingReadmeMsg

/-- Function `process_template`: trim trailing newlines, then the title, license and
readme stages in order. -/
def process_template (template readme : List Char) (ci : CrateInfo)
    (add_title add_license : Bool) : Option (Except (List Char) (List Char)) :=
  let p1 := titleStep (trimNewlines template) readme ci add_title
  match licenseStep p1.1 p1.2 ci add_license with
  | none => none
  | some (Except.error e) => some (Except.error e)
  | some (Except.ok p2) => some (readmeStep p2.1 p2.2)

/-- Function `generate_readme`: extract and fold the body, fail early when a license is
requested but not configured, then merge with the template or decorate
directly.  The crate metadata is an explicit input (the manifest lookup of
`get_crate_info` is filesystem glue outside the core). -/
def generate_readme (source : List (List Char)) (template : Option (List Char))
    (crate_info : CrateInfo) (add_title add_license indent_headings : Bool) :
    Option (Except (List Char) (List Char)) :=
  let readme := fold_data (extract source indent_headings)
  if add_license = true ∧ crate_info.license = none then some (Except.error noLicenseMsg)
  else
    match template with
    | some t => process_template t readme crate_info add_title add_license
    | none =>
      let r1 := if add_title = true then prepend_title readme crate_info.name else readme
      match add_license, crate_info.license with
      | true, some lic => some (Except.ok (append_license r1 lic))
      | true, none => none
      | false, _ => some (Except.ok r1)

/-- The effect of the `indent_headings` flag on one emitted line, given the
section in force when the line was emitted. -/
def indentRender (p : Code × List Char) : List Char :=
  if p.1 = Code.Doc ∧ ("#".toList).isPrefixOf p.2 = true then '#' :: p.2 else p.2

/-- Tagged extraction: each emitted line paired with the section in force
when it was emitted (using the `indent_headings = false` content). -/
def extractTagged : Code → List (List Char) → List (Code × List Char)
  | _, [] => []
  | sec, l :: rest =>
    match step false sec l with
    | (sec', some s) => (sec', s) :: extractTagged sec' rest
    | (sec', none) => extractTagged sec' rest

/-- A list is a prefix (in the Boolean sense) of itself followed by anything. -/
theorem isPrefixOf_self_append (a b : List Char) : a.isPrefixOf (a ++ b) = true := by
  induction a with
  | nil => simp [List.isPrefixOf]
  | cons c rest ih => simp [List.isPrefixOf, ih]

/-- Elements not satisfying `p` survive `dropWhile p`. -/
theorem mem_dropWhile_of_not (p : Char → Bool) (x : Char) (l : List Char)
    (hx : x ∈ l) (hp : p x = false) : x ∈ l.dropWhile p := by
  rw [← List.takeWhile_append_dropWhile p l] at hx
  rcases List.mem_append.mp hx with h | h
  · exact absurd (List.mem_takeWhile_imp h) (by simp [hp])
  · exact h

/-- Non-whitespace characters survive `trim`. -/
theorem mem_trim_of_mem (x : Char) (l : List Char) (hx : x ∈ l) (hw : wsp x = false) :
    x ∈ trim l := by
  unfold trim
  exact List.mem_reverse.mpr (mem_dropWhile_of_not _ _ _
    (List.mem_reverse.mpr (mem_dropWhile_of_not _ _ _ hx hw)) hw)

/-- A line containing a non-whitespace character outside `//!` does not trim
to the bare doc marker. -/
theorem trim_ne_bareDoc (x : Char) (l : List Char) (hx : x ∈ l) (hw : wsp x = false)
    (hnb : x ∈ bareDoc → False) : ¬trim l = bareDoc := fun h =>
  hnb (h ▸ mem_trim_of_mem x l hx hw)

/-- One step with `indent_headings` on is one step with it off followed by the
indent rendering of the emitted line under the post-transition section. -/
theorem step_true_eq (sec : Code) (l : List Char) :
    step true sec l =
      ((step false sec l).1,
        (step false sec l).2.map (fun s => indentRender ((step false sec l).1, s))) := by
  unfold step lineTail stripLine
  split_ifs <;> (simp_all [indentRender]; try (split_ifs <;> simp_all))

/-- The untagged run with the flag off is the tagged run stripped of tags. -/
theorem extractGo_false_eq (src : List (List Char)) :
    ∀ sec : Code, extractGo false sec src = (extractTagged sec src).map Prod.snd := by
  induction src with
  | nil => intro sec; rfl
  | cons l rest ih =>
    intro sec
    rcases h : step false sec l with ⟨sec', out⟩
    cases out <;> simp [extractGo, extractTagged, h, ih]

/-- The run with the flag on is the tagged run rendered through the indent
rule. -/
theorem extractGo_true_eq (src : List (List Char)) :
    ∀ sec : Code, extractGo true sec src = (extractTagged sec src).map indentRender := by
  induction src with
  | nil => intro sec; rfl
  | cons l rest ih =>
    intro sec
    rcases h : step false sec l with ⟨sec', out⟩
    have ht := step_true_eq sec l
    rw [h] at ht
    cases out <;> (simp at ht; simp [extractGo, extractTagged, h, ht, ih])

/-- Folding distributes over a fixed prefix of the accumulator. -/
theorem fold_join (a : List Char) (rest : List (List Char)) :
    ∀ s : List Char,
      rest.foldl (fun acc line => acc ++ '\n' :: line) (a ++ s) =
        a ++ rest.foldl (fun acc line => acc ++ '\n' :: line) s := by
  induction rest with
  | nil => intro s; rfl
  | cons l rs ih =>
    intro s
    simp only [List.foldl_cons]
    rw [List.append_assoc]
    exact ih (s ++ '\n' :: l)

/-- A source with no `//!`-prefixed line extracts to nothing, from any state. -/
theorem extractGo_all_unprefixed (ih : Bool) :
    ∀ (src : List (List Char)), (∀ l ∈ src, docMarker.isPrefixOf l = false) →
      ∀ sec, extractGo ih sec src = [] := by
  intro src
  induction src with
  | nil => intro _ sec; rfl
  | cons l rest ihs =>
    intro h sec
    have hl : docMarker.isPrefixOf l = false := h l (by simp)
    have hstep : step ih sec l = (sec, none) := by
      unfold step; rw [if_neg (by simp [hl])]
    simp only [extractGo, hstep]
    exact ihs (fun x hx => h x (by simp [hx])) sec

/-- In the `Rust` section, a prefixed line is dropped when it carries the
hidden marker, and otherwise (if it is not the closing fence) it is emitted
through the blank/strip rule with the section unchanged. -/
theorem step_rust (ih : Bool) (l : List Char) (hpre : docMarker.isPrefixOf l = true) :
    (hiddenMarker.isPrefixOf l = true → step ih Code.Rust l = (Code.Rust, none)) ∧
    (hiddenMarker.isPrefixOf l = false → l ≠ closeFenceLine →
      step ih Code.Rust l = (Code.Rust, some (if trim l = bareDoc then [] else l.drop 4))) := by
  constructor
  · intro hh
    have hne : ¬(¬Code.Rust = Code.Doc ∧ l = closeFenceLine) := by
      rintro ⟨-, hl2⟩
      rw [hl2] at hh
      exact absurd hh (by decide)
    unfold step lineTail
    rw [if_pos hpre, if_neg (by simp), if_neg (by simp), if_neg hne, if_pos ⟨rfl, hh⟩]
  · intro hh hcl
    have hne : ¬(¬Code.Rust = Code.Doc ∧ l = closeFenceLine) := by
      rintro ⟨-, hl2⟩; exact hcl hl2
    unfold step lineTail
    rw [if_pos hpre, if_neg (by simp), if_neg (by simp), if_neg hne, if_neg (by simp [hh])]
    simp [stripLine]

/-- Trailing newlines are invisible to `trimNewlines`. -/
theorem trimNewlines_append_newlines (t : List Char) (n : Nat) :
    trimNewlines (t ++ List.replicate n '\n') = trimNewlines t := by
  unfold trimNewlines
  rw [List.reverse_append, List.reverse_replicate]
  congr 1
  induction n with
  | zero => rfl
  | succ k ih => rw [List.replicate_succ, List.cons_append, List.dropWhile_cons_of_pos (by simp), ih]

/-- Every list is its newline-trimmed form followed by some run of newlines. -/
theorem trimNewlines_decomp (t : List Char) :
    ∃ k, t = trimNewlines t ++ List.replicate k '\n' := by
  refine ⟨(t.reverse.takeWhile (fun c => c == '\n')).length, ?_⟩
  unfold trimNewlines
  conv_lhs => rw [← t.reverse_reverse,
    ← List.takeWhile_append_dropWhile (fun c => c == '\n') t.reverse]
  rw [List.reverse_append]
  congr 1
  have hall : ∀ b ∈ t.reverse.takeWhile (fun c => c == '\n'), b = '\n' := by
    intro b hb
    simpa using List.mem_takeWhile_imp hb
  rw [List.eq_replicate_of_mem hall, List.reverse_replicate, List.length_replicate]

/-- The newline-trimmed form never ends in a newline. -/
theorem trimNewlines_getLast (t : List Char) :
    (trimNewlines t).getLast? = some '\n' → False := by
  unfold trimNewlines
  rw [List.getLast?_reverse]
  generalize t.reverse = l
  induction l with
  | nil => simp
  | cons c rest ih =>
    by_cases hc : (c == '\n') = true
    · simpa [List.dropWhile_cons, hc] using ih
    · simp [List.dropWhile_cons, hc]
      intro h
      simp [h] at hc

-- sanity checks against the unit test embedded in the source
example :
    extract ["//! first line".toList, ("//! " ++ "```").toList,
      "//! let x = 1;".toList, "//! # hidden".toList, ("//! " ++ "```").toList,
      "//! # heading".toList, ("//! " ++ "```no_run").toList,
      "//! let y = 2;".toList, ("//! " ++ "```").toList,
      ("//! " ++ "```C").toList, "//! int i;".toList,
      ("//! " ++ "```").toList, "fn main() ".toList] true =
    ["first line".toList, "```rust".toList, "let x = 1;".toList, "```".toList,
     "## heading".toList, "```rust".toList, "let y = 2;".toList, "```".toList,
     "```C".toList, "int i;".toList, "```".toList] := by decide

example : fold_data ["a".toList, "b".toList] = "a\nb".toList := by decide


/-- Claim C1, counterexample: the merge trims ALL trailing newlines of the
template, not just one.  With template body-token followed by three newlines,
the claim predicts that two newlines survive into the output (giving
"X\n\n"); the code outputs plain "X". -/
theorem C1_counterexample :
    process_template ("\x7b\x7breadme\x7d\x7d\n\n\n".toList) ("X".toList) ⟨"n".toList, none⟩
        false false = some (Except.ok ("X".toList)) ∧
      ("X".toList : List Char) ≠ "X\n\n".toList :=
  ⟨by decide, by decide⟩

/-- Claim C1 (amended): before any placeholder handling, the raw template
text is trimmed of its entire maximal run of trailing newline characters (a
template ending in several newlines loses all of them); appending trailing
newlines to a template never changes the merge result. -/
theorem C1_amended_thm (t r : List Char) (ci : CrateInfo) (a al : Bool) (n : Nat) :
    process_template (t ++ List.replicate n '\n') r ci a al = process_template t r ci a al ∧
      trimNewlines (t ++ List.replicate n '\n') = trimNewlines t ∧
      (∃ k, t = trimNewlines t ++ List.replicate k '\n') ∧
      ((trimNewlines t).getLast? = some '\n' → False) := by
  refine ⟨?_, trimNewlines_append_newlines t n, trimNewlines_decomp t, trimNewlines_getLast t⟩
  unfold process_template
  rw [trimNewlines_append_newlines]

/-- Witness for C1 at a concrete input. -/
theorem C1_witness :
    process_template ("T\n".toList ++ List.replicate 2 '\n') ("B".toList) ⟨"n".toList, none⟩
        false false =
      process_template ("T\n".toList) ("B".toList) ⟨"n".toList, none⟩ false false :=
  (C1_amended_thm ("T\n".toList) ("B".toList) ⟨"n".toList, none⟩ false false 2).1

/-- Claim C3: for every source, every template (or none) and every remaining
flag, when `add_license` is requested and the crate metadata has no license,
generation fails with the "no license configured" error; the check precedes
all template processing, so the result is the same error for any template. -/
theorem C3_no_license_first (src : List (List Char)) (template : Option (List Char))
    (ci : CrateInfo) (add_title ih : Bool) (h : ci.license = none) :
    generate_readme src template ci add_title true ih = some (Except.error noLicenseMsg) := by
  simp [generate_readme, h]

/-- Witness for C3 at a concrete input. -/
theorem C3_witness :
    generate_readme [] (some readmeTok) ⟨"n".toList, none⟩ false true false =
      some (Except.error noLicenseMsg) :=
  C3_no_license_first [] (some readmeTok) ⟨"n".toList, none⟩ false false rfl

/-- Claim C5: in the prose state, a fence-open line with any accepted
modifier annotation (or none) emits exactly the normalized opening line
"```rust" and enters the primary-code state, identically for every accepted
modifier; the bare closing fence then emits exactly the normalized "```" and
returns to prose. -/
theorem C5_fence_round_trip (ih : Bool) (m : List Char)
    (hm : m ∈ [([] : List Char), "no_run".toList, "ignore".toList, "should_panic".toList]) :
    step ih Code.Doc (fenceOpen ++ m) = (Code.Rust, some ("```rust".toList)) ∧
      step ih Code.Rust closeFenceLine = (Code.Doc, some ("```".toList)) := by
  fin_cases hm <;> cases ih <;> exact ⟨by decide, by decide⟩

/-- Witness for C5 at a concrete modifier. -/
theorem C5_witness :
    step false Code.Doc (fenceOpen ++ "ignore".toList) =
        (Code.Rust, some ("```rust".toList)) ∧
      step false Code.Rust closeFenceLine = (Code.Doc, some ("```".toList)) :=
  C5_fence_round_trip false ("ignore".toList) (by decide)

/-- Claim C9: folding joins the lines with exactly one newline between
consecutive lines, is empty on no lines, is the line itself on one line and
adds no trailing newline; and a source with no doc-prefixed line extracts to
the empty sequence, which folds to the empty string. -/
theorem C9_fold_props :
    fold_data [] = [] ∧ (∀ x : List Char, fold_data [x] = x) ∧
      (∀ (x y : List Char) (rest : List (List Char)),
        fold_data (x :: y :: rest) = x ++ '\n' :: fold_data (y :: rest)) ∧
      (∀ (src : List (List Char)) (ih : Bool),
        (∀ l ∈ src, docMarker.isPrefixOf l = false) →
          extract src ih = [] ∧ fold_data (extract src ih) = []) := by
  refine ⟨rfl, fun x => rfl, fun x y rest => ?_, fun src ih h => ?_⟩
  · show rest.foldl _ (x ++ '\n' :: y) = _
    have h1 := fold_join x rest ('\n' :: y)
    have h2 := fold_join ['\n'] rest y
    rw [h1, show ('\n' :: y) = ['\n'] ++ y from rfl, h2]
    rfl
  · have he : extract src ih = [] := extractGo_all_unprefixed ih src h Code.Doc
    exact ⟨he, by rw [he]; rfl⟩

/-- Witness for C9 at a concrete input. -/
theorem C9_witness :
    extract ["let x0 = 1;".toList] false = [] ∧
      fold_data (extract ["let x0 = 1;".toList] false) = [] :=
  C9_fold_props.2.2.2 ["let x0 = 1;".toList] false (by decide)


/-- Claim C2, counterexample: in the prose state, a fence-open line whose
annotation is the non-whitespace token "+" does NOT transition to the
other-language state (the scanner requires a word character after the fence
marker); the state stays prose. -/
theorem C2_counterexample :
    step false Code.Doc (fenceOpen ++ "+".toList) = (Code.Doc, some ("```+".toList)) ∧
      Code.Doc ≠ Code.Other :=
  ⟨by decide, by decide⟩

/-- Claim C2 (amended): in the prose state, a prefixed line consisting of the
fence-open marker immediately followed by a non-whitespace annotation that
BEGINS WITH A WORD CHARACTER (letter, digit or underscore) and is not one of
the accepted primary-language modifiers transitions the state to the
other-language code state, and the line itself is emitted prefix-stripped by
the general line rule, not specially tagged. -/
theorem C2_amended_thm (ih : Bool) (c : Char) (ann : List Char)
    (hw : isWordChar c = true) (_hnw : ∀ x ∈ ann, x.isWhitespace = false)
    (h1 : c :: ann ≠ "no_run".toList) (h2 : c :: ann ≠ "ignore".toList)
    (h3 : c :: ann ≠ "should_panic".toList) :
    step ih Code.Doc (fenceOpen ++ c :: ann) =
      (Code.Other, some ("```".toList ++ c :: ann)) := by
  have hl : fenceOpen ++ c :: ann = '/' :: '/' :: '!' :: ' ' :: '\x60' :: '\x60' :: '\x60' :: c :: ann :=
    rfl
  have hpre : docMarker.isPrefixOf (fenceOpen ++ c :: ann) = true := by
    rw [hl]; rfl
  have hrust : ¬reCodeRust (fenceOpen ++ c :: ann) := by
    rintro (h | h | h | h)
    · have hlen := congrArg List.length h
      simp only [List.length_append, List.length_cons] at hlen
      have h7 : fenceOpen.length = 7 := rfl
      rw [h7] at hlen
      omega
    · exact h1 (List.append_cancel_left h)
    · exact h2 (List.append_cancel_left h)
    · exact h3 (List.append_cancel_left h)
  have hother : reCodeOther (fenceOpen ++ c :: ann) = true := by
    have hp : fenceOpen.isPrefixOf (fenceOpen ++ c :: ann) = true :=
      isPrefixOf_self_append _ _
    rw [hl]
    rw [hl] at hp
    simp [reCodeOther, hp, headWord, hw]
  unfold step lineTail
  rw [if_pos hpre, if_neg (by rintro ⟨-, hr⟩; exact hrust hr), if_pos ⟨rfl, hother⟩,
    if_neg (by simp)]
  have htr : ¬trim (fenceOpen ++ c :: ann) = bareDoc := by
    refine trim_ne_bareDoc '\x60' _ ?_ rfl (by decide)
    rw [hl]; simp
  rw [stripLine, if_neg htr, if_neg (by simp)]
  rfl

/-- Witness for C2 at a concrete annotation. -/
theorem C2_witness :
    step false Code.Doc (fenceOpen ++ 'p' :: "ython".toList) =
      (Code.Other, some ("```".toList ++ 'p' :: "ython".toList)) :=
  C2_amended_thm false 'p' "ython".toList (by decide) (by decide) (by decide) (by decide)
    (by decide)

/-- Claim C6, counterexample: inside a primary code block, the prefixed line
"//! \t" (whitespace-only content) is emitted as the empty string, not as its
prefix-stripped content "\t"; so not every non-hidden line in the block
appears verbatim prefix-stripped. -/
theorem C6_counterexample :
    extract [fenceOpen, "//! \t".toList, closeFenceLine] false =
        ["```rust".toList, [], "```".toList] ∧
      ("//! \t".toList).drop 4 = "\t".toList ∧ ([] : List Char) ≠ "\t".toList :=
  ⟨by decide, by decide, by decide⟩

/-- Claim C6 (amended): inside a primary code block, every prefixed line
carrying the hidden marker (prefix, hash, space) is dropped entirely; every
other prefixed line except the closing fence is emitted with its first four
characters removed, except that a line whose content after the prefix is
only whitespace is emitted as the empty string. -/
theorem C6_amended_thm (ih : Bool) (l : List Char)
    (hpre : docMarker.isPrefixOf l = true) :
    (hiddenMarker.isPrefixOf l = true → step ih Code.Rust l = (Code.Rust, none)) ∧
      (hiddenMarker.isPrefixOf l = false → l ≠ closeFenceLine →
        step ih Code.Rust l = (Code.Rust, some (if trim l = bareDoc then [] else l.drop 4))) :=
  step_rust ih l hpre

/-- Witness for C6 at concrete lines. -/
theorem C6_witness :
    step false Code.Rust ("//! # hidden".toList) = (Code.Rust, none) ∧
      step false Code.Rust ("//! let x = 1;".toList) =
        (Code.Rust, some ("let x = 1;".toList)) := by
  constructor
  · exact (C6_amended_thm false ("//! # hidden".toList) (by decide)).1 (by decide)
  · have h := (C6_amended_thm false ("//! let x = 1;".toList) (by decide)).2 (by decide)
      (by decide)
    rw [h]; decide

/-- Claim C7: running extraction with `indent_headings` on is exactly running
it with the flag off and then, per emitted line, inserting one extra heading
marker when the line was emitted in the prose state and begins with a heading
marker; hence both runs have equal length, all other lines coincide, and no
line emitted inside a code block is modified. -/
theorem C7_indent_characterization (src : List (List Char)) :
    extract src true = (extractTagged Code.Doc src).map indentRender ∧
      extract src false = (extractTagged Code.Doc src).map Prod.snd ∧
      (extract src true).length = (extract src false).length ∧
      ∀ p ∈ extractTagged Code.Doc src, ¬p.1 = Code.Doc → indentRender p = p.2 := by
  refine ⟨extractGo_true_eq src Code.Doc, extractGo_false_eq src Code.Doc, ?_, ?_⟩
  · rw [extract, extract, extractGo_true_eq, extractGo_false_eq]
    simp
  · intro p _ hp
    unfold indentRender
    rw [if_neg (by tauto)]

/-- Witness for C7 at a concrete source. -/
theorem C7_witness :
    extract [fenceOpen, "//! ## note".toList] true =
        (extractTagged Code.Doc [fenceOpen, "//! ## note".toList]).map indentRender ∧
      indentRender (Code.Rust, "## note".toList) = "## note".toList := by
  refine ⟨(C7_indent_characterization [fenceOpen, "//! ## note".toList]).1, ?_⟩
  exact (C7_indent_characterization [fenceOpen, "//! ## note".toList]).2.2.2
    (Code.Rust, "## note".toList) (by decide) (by decide)

/-- Claim C10: the hidden-line rule fires only on the full marker
prefix-hash-space; inside a primary code block, a prefixed line whose
stripped content begins with a hash NOT followed by a space is emitted
prefix-stripped like any other code line, while a hash followed by a space is
dropped. -/
theorem C10_hash_space_only (ih : Bool) (rest : List Char)
    (h : rest.head? = some ' ' → False) :
    step ih Code.Rust ("//! #".toList ++ rest) = (Code.Rust, some ('#' :: rest)) ∧
      step ih Code.Rust (hiddenMarker ++ rest) = (Code.Rust, none) := by
  constructor
  · have hpre : docMarker.isPrefixOf ("//! #".toList ++ rest) = true := rfl
    have hh : hiddenMarker.isPrefixOf ("//! #".toList ++ rest) = false := by
      have hred : hiddenMarker.isPrefixOf ("//! #".toList ++ rest) =
          ([' '].isPrefixOf rest) := rfl
      rw [hred]
      cases rest with
      | nil => rfl
      | cons r rs =>
        have hr : ¬r = ' ' := fun hr => h (by simp [hr])
        simp [List.isPrefixOf]
        exact fun heq => absurd heq.symm hr
    have hcl : "//! #".toList ++ rest ≠ closeFenceLine := by
      intro heq
      have h5 : (("//! #".toList ++ rest).get? 4) = closeFenceLine.get? 4 := by rw [heq]
      have hA : (("//! #".toList ++ rest).get? 4) = some '#' := rfl
      have hB : closeFenceLine.get? 4 = some '\x60' := rfl
      rw [hA, hB] at h5
      exact absurd h5 (by decide)
    have hr := (step_rust ih _ hpre).2 hh hcl
    rw [hr]
    have htr : ¬trim ("//! #".toList ++ rest) = bareDoc :=
      trim_ne_bareDoc '#' _ (List.mem_append_left _ (by decide)) rfl (by decide)
    rw [if_neg htr]
    rfl
  · have hpre2 : docMarker.isPrefixOf (hiddenMarker ++ rest) = true := by
      have hsplit : hiddenMarker ++ rest = docMarker ++ (" # ".toList ++ rest) := rfl
      rw [hsplit]
      exact isPrefixOf_self_append _ _
    exact (step_rust ih _ hpre2).1 (isPrefixOf_self_append _ _)

/-- Witness for C10 at concrete lines. -/
theorem C10_witness :
    step false Code.Rust ("//! #".toList ++ "[derive(Debug)]".toList) =
        (Code.Rust, some ('#' :: "[derive(Debug)]".toList)) ∧
      step false Code.Rust (hiddenMarker ++ "x".toList) = (Code.Rust, none) :=
  ⟨(C10_hash_space_only false ("[derive(Debug)]".toList) (by decide)).1,
    (C10_hash_space_only false ("x".toList) (by decide)).2⟩


/-- Claim C4: at the license stage of the merge (the template as it stands
after trimming and the title stage), a template containing the license
placeholder always triggers substitution-or-error regardless of
`add_license`: it yields the "missing license" error when no license is
configured, and otherwise substitutes every occurrence; while with
`add_license` set and the placeholder absent, the license is appended to the
body by the decorator instead. -/
theorem C4_license_stage (t r : List Char) (ci : CrateInfo) (a al : Bool)
    (t1 r1 : List Char) (ht : titleStep (trimNewlines t) r ci a = (t1, r1)) :
    (containsTok licenseTok t1 = true → ci.license = none →
      process_template t r ci a al = some (Except.error licFoundMsg)) ∧
      (containsTok licenseTok t1 = true → ∀ lic, ci.license = some lic →
        process_template t r ci a al =
          some (readmeStep (replaceAll licenseTok lic t1) r1)) ∧
      (al = true → containsTok licenseTok t1 = false → ∀ lic, ci.license = some lic →
        process_template t r ci a al = some (readmeStep t1 (append_license r1 lic))) := by
  refine ⟨fun hc hn => ?_, fun hc lic hl => ?_, fun hal hc lic hl => ?_⟩
  · unfold process_template
    rw [ht]
    simp [licenseStep, hc, hn]
  · unfold process_template
    rw [ht]
    simp [licenseStep, hc, hl]
  · unfold process_template
    rw [ht]
    simp [licenseStep, hal, hc, hl]

/-- Witness for C4 at a concrete input: license placeholder present, license
not configured, add_license off — the merge still reports the license error. -/
theorem C4_witness :
    process_template ("\x7b\x7blicense\x7d\x7d \x7b\x7breadme\x7d\x7d".toList) ("B".toList)
        ⟨"n".toList, none⟩ false false = some (Except.error licFoundMsg) :=
  (C4_license_stage ("\x7b\x7blicense\x7d\x7d \x7b\x7breadme\x7d\x7d".toList) ("B".toList)
      ⟨"n".toList, none⟩ false false
      (replaceAll crateTok ("n".toList)
        (trimNewlines ("\x7b\x7blicense\x7d\x7d \x7b\x7breadme\x7d\x7d".toList)))
      ("B".toList) (by decide)).1 (by decide) rfl

/-- Claim C8, counterexample: the body-placeholder check is made on the
template AFTER the crate-name substitution, not on the trimmed template.
With template `crate`-token and crate name equal to the readme token, the
trimmed template has no body placeholder, yet the merge succeeds instead of
failing with the "missing body placeholder" error. -/
theorem C8_counterexample :
    containsTok readmeTok (trimNewlines ("\x7b\x7bcrate\x7d\x7d".toList)) = false ∧
      process_template ("\x7b\x7bcrate\x7d\x7d".toList) ("B".toList) ⟨readmeTok, none⟩
        false false = some (Except.ok ("B".toList)) :=
  ⟨by decide, by decide⟩

/-- Claim C8 (amended): when the license stage succeeds, the merge fails with
the "missing body placeholder" error exactly when the template AS IT STANDS
AFTER THE TITLE AND LICENSE STEPS does not contain the body placeholder;
otherwise every occurrence of the body placeholder in that template is
replaced by the body as it stands after those steps.  The body check comes
after the license step: a license-stage error is reported as such, not as a
missing-body error. -/
theorem C8_body_stage (t r : List Char) (ci : CrateInfo) (a al : Bool)
    (t1 r1 : List Char) (ht : titleStep (trimNewlines t) r ci a = (t1, r1)) :
    (∀ e, licenseStep t1 r1 ci al = some (Except.error e) →
      process_template t r ci a al = some (Except.error e)) ∧
      (∀ t2 r2, licenseStep t1 r1 ci al = some (Except.ok (t2, r2)) →
        ((process_template t r ci a al = some (Except.error missingReadmeMsg)) ↔
          containsTok readmeTok t2 = false) ∧
        (containsTok readmeTok t2 = true →
          process_template t r ci a al = some (Except.ok (replaceAll readmeTok r2 t2)))) := by
  constructor
  · intro e he
    unfold process_template
    rw [ht]
    simp only []
    rw [he]
  · intro t2 r2 hok
    have hpt : process_template t r ci a al = some (readmeStep t2 r2) := by
      unfold process_template
      rw [ht]
      simp only []
      rw [hok]
    constructor
    · rw [hpt]
      unfold readmeStep
      by_cases hc : containsTok readmeTok t2 = true
      · simp [hc]
      · simp [hc]
    · intro hc
      rw [hpt]
      unfold readmeStep
      rw [if_pos hc]

/-- Witness for C8 at a concrete input. -/
theorem C8_witness :
    process_template readmeTok ("B".toList) ⟨"n".toList, none⟩ false false =
      some (Except.ok ("B".toList)) := by
  have h := (C8_body_stage readmeTok ("B".toList) ⟨"n".toList, none⟩ false false
      (replaceAll crateTok ("n".toList) (trimNewlines readmeTok)) ("B".toList) (by decide)).2
    (replaceAll crateTok ("n".toList) (trimNewlines readmeTok)) ("B".toList) (by decide)
  exact (h.2 (by decide)).trans (by decide)

end CargoReadme
